import Mathlib

/-!
Shallow embedding of the Modal sandbox executor (`src/sandbox/executor.py`)
and the sandbox registry (`src/agents/base.py`).

The executor is asynchronous Python talking to an external sandbox platform
over byte streams.  The embedding makes the external world an explicit
oracle: a `World` fixes, for each process-spawn attempt and for each
request/response exchange with the resident interpreter, the outcome the
platform delivers (index `i` is the `i`-th such primitive operation
performed by the client).  The client code itself — control flow, exception
handling, state updates — is translated statement by statement from the
source.  Decoding of received bytes (`json.loads`, UTF-8 decode) is not
re-implemented; the oracle hands the classification of the received line
(undecodable / whitespace-only / a JSON value), which is exactly the case
split the Python code performs on it.
-/

/-- A JSON value as `json.loads` produces it (numbers modelled as integers;
object fields keep their textual order, duplicate keys resolved last-wins as
in Python). -/
inductive PyJson where
  | null : PyJson
  | bool (b : Bool) : PyJson
  | num (n : Int) : PyJson
  | str (s : String) : PyJson
  | arr (xs : List PyJson) : PyJson
  | obj (kvs : List (String × PyJson)) : PyJson

/-- `d.get(k, dflt)` on a dict decoded from JSON: the last binding of `k`
wins, the default is returned when `k` is absent. -/
def pyDictGet (kvs : List (String × PyJson)) (k : String) (dflt : PyJson) : PyJson :=
  match kvs.reverse.lookup k with
  | some v => v
  | none => dflt

/-- Python truthiness (`bool(x)`) of a decoded JSON value. -/
def PyJson.truthy : PyJson → Bool
  | .null => false
  | .bool b => b
  | .num n => n != 0
  | .str s => s != ""
  | .arr xs => !xs.isEmpty
  | .obj kvs => !kvs.isEmpty

/-- The Python type name of a decoded JSON value, as it appears in an
`AttributeError` raised by `value.get(...)` on a non-dict. -/
def pyTypeName : PyJson → String
  | .null => "NoneType"
  | .bool _ => "bool"
  | .num _ => "int"
  | .str _ => "str"
  | .arr _ => "list"
  | .obj _ => "dict"

/-- `str(exc)` for the `AttributeError` raised when `execute_python` calls
`response.get(...)` and the decoded response is not a dict. -/
def attrGetMsg (j : PyJson) : String :=
  "'" ++ pyTypeName j ++ "' object has no attribute 'get'"

/-- `ExecutionResult` from `executor.py`: `stdout`/`stderr` keep the JSON
values the code stores in them unchecked (the dataclass does not coerce). -/
structure ExecutionResult where
  success : Bool
  stdout : PyJson := PyJson.str ""
  stderr : PyJson := PyJson.str ""
  error : Option String := none

/-- `f"Timeout after {timeout}s"`. -/
def timeoutMsg (t : Nat) : String := "Timeout after " ++ toString t ++ "s"

/-- `ExecutionResult(success=False, error=f"Timeout after {timeout}s")`. -/
def timeoutResult (t : Nat) : ExecutionResult :=
  { success := false, error := some (timeoutMsg t) }

/-- `DEFAULT_TIMEOUT` from `executor.py`. -/
def defaultTimeout : Nat := 120

/-- The `_PYTHON_SESSION_INIT` snippet sent to every freshly started resident
process before caller code. -/
def pySessionInit : String :=
  "\nimport numpy as np\nimport pandas as pd\nimport json\nimport sys\nsys.path.insert(0, '/mnt/servers')\n"

/-- Which of the resident process's standard streams the returned handle
exposes (`getattr(proc, "stdin", None)` / `"stdout"`). -/
structure StreamCfg where
  hasStdin : Bool
  hasStdout : Bool

/-- A handle to one spawned resident process.  `id` is the spawn's index, so
distinct spawns yield distinct handles. -/
structure ProcHandle where
  id : Nat
  cfg : StreamCfg

/-- Both streams of the handle are present. -/
def streamsOk (p : ProcHandle) : Bool := p.cfg.hasStdin && p.cfg.hasStdout

/-- Classification of one line received from the resident process's stdout,
after `_decode_stream` and `.strip()`:
`empty` — a falsy read (`b""`, stream exhausted);
`blank` — a non-empty line that strips to nothing;
`json`  — a line `json.loads` decodes to `j`;
`malformed` — `json.loads` raises, `msg` its text. -/
inductive RecvLine where
  | empty : RecvLine
  | blank : RecvLine
  | json (j : PyJson) : RecvLine
  | malformed (msg : String) : RecvLine

/-- What the world delivers for one `_communicate_with_python` exchange:
the bounded wait times out, the write/read raises, or a line arrives. -/
inductive CommEvent where
  | timeout : CommEvent
  | readError (msg : String) : CommEvent
  | line (l : RecvLine) : CommEvent

/-- Outcome of `_communicate_with_python` as the caller sees it. -/
inductive CommResult where
  | resp (j : PyJson) : CommResult
  | timeoutErr : CommResult
  | raised (msg : String) : CommResult

/-- The external world: outcome of the `i`-th process spawn
(`self._sandbox.exec.aio(...)` — a stream configuration, or the exception it
raises) and of the `i`-th communicate exchange. -/
structure World where
  spawns : Nat → Except String StreamCfg
  comms : Nat → CommEvent

/-- The mutable state of one `Sandbox` object: the nullable resident-process
handle (`self._python_proc`), the two oracle cursors, and an instrumentation
log recording, in order, each `"code"` payload written to a resident
process's stdin (pairs of process id and payload). -/
structure SandboxSt where
  pythonProc : Option ProcHandle := none
  spawnIdx : Nat := 0
  commIdx : Nat := 0
  log : List (Nat × String) := []

/-- The state after one payload has been written to process `pid`'s stdin:
the read cursor advances and the send log grows by one entry. -/
def commSent (s : SandboxSt) (pid : Nat) (payload : String) : SandboxSt :=
  { s with commIdx := s.commIdx + 1, log := s.log ++ [(pid, payload)] }

/-- `Sandbox._communicate_with_python({"code": payload}, timeout)`:
checks the handle and its streams, writes the payload (logged), then awaits
one response line; mirrors the source's raise sites. -/
def commStep (w : World) (s : SandboxSt) (payload : String) : CommResult × SandboxSt :=
  match s.pythonProc with
  | none => (.raised "Python session is not initialized", s)
  | some p =>
    if streamsOk p then
      match w.comms s.commIdx with
      | .timeout => (.timeoutErr, commSent s p.id payload)
      | .readError m => (.raised m, commSent s p.id payload)
      | .line .empty =>
        (.raised "Python session terminated unexpectedly", commSent s p.id payload)
      | .line .blank =>
        (.resp (.obj [("ok", .bool true), ("stdout", .str ""), ("stderr", .str "")]),
          commSent s p.id payload)
      | .line (.json j) => (.resp j, commSent s p.id payload)
      | .line (.malformed m) => (.raised m, commSent s p.id payload)
    else (.raised "Python session streams are unavailable", s)

/-- Outcome of `_start_python_session` / `_ensure_python_session` /
`_restart_python_session` as their caller sees it. -/
inductive StartResult where
  | ok : StartResult
  | timeoutErr : StartResult
  | raised (msg : String) : StartResult

/-- `Sandbox._start_python_session`: spawns the resident process (handle
assigned before initialization) and immediately sends `_PYTHON_SESSION_INIT`
through `_communicate_with_python`; the init response value is discarded. -/
def startStep (w : World) (s : SandboxSt) : StartResult × SandboxSt :=
  match w.spawns s.spawnIdx with
  | .error m => (.raised m, { s with spawnIdx := s.spawnIdx + 1 })
  | .ok cfg =>
    match commStep w { s with spawnIdx := s.spawnIdx + 1, pythonProc := some { id := s.spawnIdx, cfg := cfg } } pySessionInit with
    | (.resp _, s2) => (.ok, s2)
    | (.timeoutErr, s2) => (.timeoutErr, s2)
    | (.raised m, s2) => (.raised m, s2)

/-- `Sandbox._ensure_python_session`: start the session only when no handle
is present. -/
def ensureStep (w : World) (s : SandboxSt) : StartResult × SandboxSt :=
  match s.pythonProc with
  | some _ => (.ok, s)
  | none => startStep w s

/-- `Sandbox._restart_python_session`: `_stop_python_session` suppresses
every exception and ends with `self._python_proc = None`; then a fresh
start. -/
def restartStep (w : World) (s : SandboxSt) : StartResult × SandboxSt :=
  startStep w { s with pythonProc := none }

/-- An exception propagating out of `execute_python`. -/
inductive PyExn where
  | timeout : PyExn
  | other (msg : String) : PyExn

/-- How a call to `execute_python` ends for its caller: a returned
`ExecutionResult`, or an exception that escapes. -/
inductive PyCallOutcome where
  | ret (r : ExecutionResult) : PyCallOutcome
  | exn (e : PyExn) : PyCallOutcome

/-- The outcome is a returned result (no exception escaped). -/
def PyCallOutcome.isRet : PyCallOutcome → Bool
  | .ret _ => true
  | .exn _ => false

/-- One caller-visible `execute_python` call: its outcome, the sandbox state
it leaves behind, and how many times `_restart_python_session` ran. -/
structure PyCall where
  outcome : PyCallOutcome
  st : SandboxSt
  restarts : Nat

/-- `ExecutionResult(success=bool(r.get("ok", False)), stdout=r.get("stdout",
""), stderr=r.get("stderr", ""))` for a decoded dict response. -/
def mkPyResult (kvs : List (String × PyJson)) : ExecutionResult :=
  { success := (pyDictGet kvs "ok" (.bool false)).truthy
    stdout := pyDictGet kvs "stdout" (.str "")
    stderr := pyDictGet kvs "stderr" (.str "")
    error := none }

/-- Second restart of `execute_python`, entered after the retry (attempt 1)
failed with `str(exc) = m`: the loop body's except-handler restarts again,
the loop ends, and the failure result carries the last error's text.  An
exception raised by this restart itself propagates. -/
def finalFail (w : World) (s : SandboxSt) (m : String) : PyCall :=
  match restartStep w s with
  | (.timeoutErr, s1) => { outcome := .exn .timeout, st := s1, restarts := 2 }
  | (.raised em, s1) => { outcome := .exn (.other em), st := s1, restarts := 2 }
  | (.ok, s1) =>
    { outcome := .ret { success := false, error := some m }, st := s1, restarts := 2 }

/-- First restart of `execute_python`, entered after attempt 0 failed with a
non-timeout exception; on success the loop's second iteration (the single
retry of the same request) runs. -/
def afterFail (w : World) (s : SandboxSt) (code : String) (t : Nat) : PyCall :=
  match restartStep w s with
  | (.timeoutErr, s1) => { outcome := .exn .timeout, st := s1, restarts := 1 }
  | (.raised em, s1) => { outcome := .exn (.other em), st := s1, restarts := 1 }
  | (.ok, s1) =>
    match ensureStep w s1 with
    | (.timeoutErr, s2) => { outcome := .ret (timeoutResult t), st := s2, restarts := 1 }
    | (.raised m2, s2) => finalFail w s2 m2
    | (.ok, s2) =>
      match commStep w s2 code with
      | (.timeoutErr, s3) => { outcome := .ret (timeoutResult t), st := s3, restarts := 1 }
      | (.raised m2, s3) => finalFail w s3 m2
      | (.resp (.obj kvs), s3) => { outcome := .ret (mkPyResult kvs), st := s3, restarts := 1 }
      | (.resp j, s3) => finalFail w s3 (attrGetMsg j)

/-- `Sandbox.execute_python(code, timeout)`: the two-iteration attempt loop.
`asyncio.TimeoutError` from ensure/communicate returns the Timeout result at
once; any other exception is stored and `_restart_python_session` runs (and
may itself raise, uncaught). -/
def executePython (w : World) (s : SandboxSt) (code : String) (t : Nat) : PyCall :=
  match ensureStep w s with
  | (.timeoutErr, s1) => { outcome := .ret (timeoutResult t), st := s1, restarts := 0 }
  | (.raised _, s1) => afterFail w s1 code t
  | (.ok, s1) =>
    match commStep w s1 code with
    | (.timeoutErr, s2) => { outcome := .ret (timeoutResult t), st := s2, restarts := 0 }
    | (.raised _, s2) => afterFail w s2 code t
    | (.resp (.obj kvs), s2) => { outcome := .ret (mkPyResult kvs), st := s2, restarts := 0 }
    | (.resp _, s2) => afterFail w s2 code t

/-- Data `_read_stream` returns for one stream of a one-shot process:
absent stream / no `read` attribute (yields `b""`), raw bytes whose UTF-8
errors-ignore decoding is `s`, or text `s` already. -/
inductive StreamData where
  | absent : StreamData
  | bytes (s : String) : StreamData
  | str (s : String) : StreamData

/-- `Sandbox._decode_stream`. -/
def decodeStream : StreamData → String
  | .absent => ""
  | .bytes s => s
  | .str s => s

/-- What the world delivers for one `execute_bash` call: some awaited step
raises (`asyncio.TimeoutError` or another exception), or the spawned
one-shot process runs to completion with an exit code (`none` when the
handle lacks a `returncode` attribute) and captured streams. -/
inductive BashEvent where
  | raisesTimeout : BashEvent
  | raises (msg : String) : BashEvent
  | completes (returncode : Option Int) (out err : StreamData) : BashEvent

/-- `Sandbox.execute_bash(command, timeout)`: spawn, read both streams,
wait, and map `getattr(process, "returncode", 0) == 0` plus the decoded
streams into the result; `asyncio.TimeoutError` and any other exception are
caught and mapped to Timeout/Failure results.  No session state is read or
written (the definition takes no `SandboxSt`). -/
def executeBash (command : String) (ev : BashEvent) (t : Nat) : ExecutionResult :=
  match ev with
  | .raisesTimeout => { success := false, error := some (timeoutMsg t) }
  | .raises m => { success := false, error := some m }
  | .completes rc out err =>
    { success := rc.getD 0 == 0
      stdout := .str (decodeStream out)
      stderr := .str (decodeStream err)
      error := none }

/-- One line read by the resident loop (`_PYTHON_SESSION_SCRIPT`) from its
stdin, after `.strip()`: whitespace-only, undecodable by `json.loads`, or a
decoded JSON value. -/
inductive ReqLine where
  | blank : ReqLine
  | malformed : ReqLine
  | msg (j : PyJson) : ReqLine

/-- The response record `run(code)` builds: it always returns a complete
`{ok, stdout, stderr}` dict (exceptions in the caller's code are caught
inside `run`). -/
structure RunOut where
  ok : Bool
  stdout : String
  stderr : String

/-- How the resident loop's `for line in sys.stdin` ends: stdin exhausted,
an uncaught exception killed the process, or a `_terminate` record broke
out. -/
inductive LoopEnd where
  | eof : LoopEnd
  | crashed : LoopEnd
  | terminated : LoopEnd
deriving DecidableEq

/-- The resident loop of `_PYTHON_SESSION_SCRIPT`: reads stdin line by line,
skips falsy (blank) lines, decodes each remaining line (`json.loads` is
uncaught — a decode failure, or `.get` on a non-dict, kills the loop),
answers a truthy `_terminate` with one ok record and breaks, and otherwise
runs the code and prints exactly one response record before the next read.
`eval k` is the record `run` returns for the `k`-th executed snippet. -/
def sessionLoop (eval : Nat → RunOut) : List ReqLine → Nat → List RunOut × LoopEnd
  | [], _ => ([], .eof)
  | .blank :: rest, k => sessionLoop eval rest k
  | .malformed :: _, _ => ([], .crashed)
  | .msg j :: rest, k =>
    match j with
    | .obj kvs =>
      if (pyDictGet kvs "_terminate" .null).truthy then
        ([{ ok := true, stdout := "", stderr := "" }], .terminated)
      else
        let r := eval k
        let rec_ := sessionLoop eval rest (k + 1)
        (r :: rec_.1, rec_.2)
    | _ => ([], .crashed)

/-- A non-blank line that decodes to an object without a truthy
`_terminate` flag: an ordinary execution request. -/
def ReqLine.isRequest : ReqLine → Bool
  | .msg (.obj kvs) => !(pyDictGet kvs "_terminate" .null).truthy
  | _ => false

/-- The module-level registry `_sandboxes` of `agents/base.py`, with a
counter from which each `Sandbox.create` call draws a fresh sandbox object
identity. -/
structure Registry where
  table : List (String × Nat) := []
  next : Nat := 0

/-- `_get_sandbox(session_id)`: return the registered sandbox when the id
is present, otherwise create one, register it, and return it. -/
def getSandbox (st : Registry) (sid : String) : Nat × Registry :=
  match st.table.lookup sid with
  | some sb => (sb, st)
  | none => (st.next, { table := (sid, st.next) :: st.table, next := st.next + 1 })

/-- `cleanup_sandbox(session_id)`: when the id is registered, await the
sandbox's `terminate()` (whose exception, given by the oracle `termRaises`
on the sandbox's identity, propagates with the entry left registered) and
then delete the entry; an unknown id does nothing and calls nothing. -/
def cleanupSandbox (termRaises : Nat → Option String) (st : Registry) (sid : String) :
    Except String Registry :=
  match st.table.lookup sid with
  | none => .ok st
  | some sb =>
    match termRaises sb with
    | some m => .error m
    | none => .ok { st with table := st.table.filter (fun kv => kv.1 != sid) }

/-- What a one-off helper leaves behind: the inner call's outcome (returned
result or propagated exception) and whether `sandbox.terminate()` was
invoked before the helper finished. -/
structure HelperOut where
  outcome : PyCallOutcome
  sandboxTerminated : Bool

/-- `run_python(code)`: create a fresh sandbox, `try: return await
sandbox.execute_python(code)` with the default timeout, `finally: await
sandbox.terminate()` — the finally block runs on the return path and on the
exception path alike. -/
def runPython (w : World) (code : String) : HelperOut :=
  let c := executePython w {} code defaultTimeout
  match c.outcome with
  | .ret r => { outcome := .ret r, sandboxTerminated := true }
  | .exn e => { outcome := .exn e, sandboxTerminated := true }

/-- `run_bash(command)`: same shape as `run_python` over `execute_bash`
(whose body catches every exception, so the outcome is always a result). -/
def runBash (command : String) (ev : BashEvent) : HelperOut :=
  { outcome := .ret (executeBash command ev defaultTimeout), sandboxTerminated := true }

/-- A world where every spawn succeeds with both streams and every exchange
answers with a complete successful record. -/
def goodWorld : World where
  spawns := fun _ => .ok { hasStdin := true, hasStdout := true }
  comms := fun _ =>
    .line (.json (.obj [("ok", .bool true), ("stdout", .str ""), ("stderr", .str "")]))

/-- A resident-process handle exposing both streams, as a successful first
spawn produces it. -/
def liveProc : ProcHandle := { id := 0, cfg := { hasStdin := true, hasStdout := true } }

/-- A sandbox state holding a healthy initialized session: one spawn and its
initialization exchange are behind it. -/
def liveSt : SandboxSt :=
  { pythonProc := some liveProc, spawnIdx := 1, commIdx := 1, log := [(0, pySessionInit)] }

lemma finalFail_ret_shape (w : World) (s : SandboxSt) (m : String) (r : ExecutionResult)
    (h : (finalFail w s m).outcome = .ret r) : r.success = false ∧ r.error = some m := by
  unfold finalFail at h
  split at h
  · simp at h
  · simp at h
  · simp at h
    subst h
    exact ⟨rfl, rfl⟩

lemma finalFail_restarts (w : World) (s : SandboxSt) (m : String) :
    (finalFail w s m).restarts = 2 := by
  unfold finalFail
  split <;> rfl

lemma finalFail_ret_of_ok (w : World) (s : SandboxSt) (m : String)
    (h : (restartStep w s).1 = StartResult.ok) :
    (finalFail w s m).outcome.isRet = true := by
  unfold finalFail
  split <;> rename_i hE <;>
    first
      | rfl
      | (rw [hE] at h; simp at h)

lemma mkPyResult_error (kvs : List (String × PyJson)) : (mkPyResult kvs).error = none := rfl

lemma afterFail_ret_shape (w : World) (s : SandboxSt) (code : String) (t : Nat)
    (r : ExecutionResult) (h : (afterFail w s code t).outcome = .ret r) :
    r.error = none ∨ r.success = false := by
  unfold afterFail at h
  split at h
  · simp at h
  · simp at h
  · split at h
    · right; simp at h; subst h; rfl
    · right; exact (finalFail_ret_shape _ _ _ _ h).1
    · split at h
      · right; simp at h; subst h; rfl
      · right; exact (finalFail_ret_shape _ _ _ _ h).1
      · left; simp at h; subst h; rfl
      · right; exact (finalFail_ret_shape _ _ _ _ h).1

lemma afterFail_ret_of_ok (w : World) (s : SandboxSt) (code : String) (t : Nat)
    (hR : ∀ s', (restartStep w s').1 = StartResult.ok) :
    (afterFail w s code t).outcome.isRet = true := by
  unfold afterFail
  split <;> rename_i hE
  · have h := hR s; rw [hE] at h; simp at h
  · have h := hR s; rw [hE] at h; simp at h
  · split
    · rfl
    · exact finalFail_ret_of_ok _ _ _ (hR _)
    · split
      · rfl
      · exact finalFail_ret_of_ok _ _ _ (hR _)
      · rfl
      · exact finalFail_ret_of_ok _ _ _ (hR _)

lemma executePython_ret_shape (w : World) (s : SandboxSt) (code : String) (t : Nat)
    (r : ExecutionResult) (h : (executePython w s code t).outcome = .ret r) :
    r.error = none ∨ r.success = false := by
  unfold executePython at h
  split at h
  · right; simp at h; subst h; rfl
  · exact afterFail_ret_shape _ _ _ _ _ h
  · split at h
    · right; simp at h; subst h; rfl
    · exact afterFail_ret_shape _ _ _ _ _ h
    · left; simp at h; subst h; rfl
    · exact afterFail_ret_shape _ _ _ _ _ h

lemma executePython_ret_of_ok (w : World) (s : SandboxSt) (code : String) (t : Nat)
    (hR : ∀ s', (restartStep w s').1 = StartResult.ok) :
    (executePython w s code t).outcome.isRet = true := by
  unfold executePython
  split
  · rfl
  · exact afterFail_ret_of_ok w _ code t hR
  · split
    · rfl
    · exact afterFail_ret_of_ok w _ code t hR
    · rfl
    · exact afterFail_ret_of_ok w _ code t hR

/-- A world where every communicate exchange raises a stream error and every
spawn attempt raises. -/
def w1 : World where
  spawns := fun _ => .error "spawn failed"
  comms := fun _ => .readError "pipe broken"

/-- C1 counterexample: starting from a healthy session, one transport error
followed by a failing restart makes `execute_python` propagate the restart's
exception to its caller — the call does not return a structured
`ExecutionResult`, refuting the claim as stated. -/
theorem c1_counterexample :
    (executePython w1 liveSt "x = 1" 7).outcome = .exn (.other "spawn failed") := by
  rfl

/-- C1 (amended): `execute_bash` always returns a structured
`ExecutionResult` and never propagates; every result `execute_python`
returns is likewise structured (a diagnostic only on failure-shaped
results); but `execute_python` propagates an exception exactly when a
`_restart_python_session` performed inside its failure-handling path itself
raises — whenever every restart completes, every call returns a structured
result. -/
theorem c1_public_calls_structured :
    (∀ command ev t,
        (executeBash command ev t).error = none ∨ (executeBash command ev t).success = false)
    ∧ (∀ w s code t r, (executePython w s code t).outcome = .ret r →
        r.error = none ∨ r.success = false)
    ∧ (∀ w s code t, (∀ s', (restartStep w s').1 = StartResult.ok) →
        (executePython w s code t).outcome.isRet = true) := by
  refine ⟨?_, ?_, ?_⟩
  · intro command ev t
    cases ev <;> simp [executeBash]
  · intro w s code t r h
    exact executePython_ret_shape w s code t r h
  · intro w s code t hR
    exact executePython_ret_of_ok w s code t hR

/-- C1 witness: the amended theorem applied in a world where every spawn and
every exchange succeeds. -/
theorem c1_witness :
    (executePython goodWorld liveSt "x = 1" 5).outcome.isRet = true :=
  c1_public_calls_structured.2.2 goodWorld liveSt "x = 1" 5 (fun s' => by
    simp [restartStep, startStep, goodWorld, commStep, streamsOk])

lemma afterFail_restarts_le (w : World) (s : SandboxSt) (code : String) (t : Nat) :
    (afterFail w s code t).restarts ≤ 2 := by
  unfold afterFail
  split
  · simp
  · simp
  · split
    · simp
    · simp [finalFail_restarts]
    · split <;> simp [finalFail_restarts]

lemma executePython_restarts_le (w : World) (s : SandboxSt) (code : String) (t : Nat) :
    (executePython w s code t).restarts ≤ 2 := by
  unfold executePython
  split
  · simp
  · exact afterFail_restarts_le _ _ _ _
  · split
    · simp
    · exact afterFail_restarts_le _ _ _ _
    · simp
    · exact afterFail_restarts_le _ _ _ _

/-- The complete well-formed response record of a successful snippet with no
output. -/
def okRecord : PyJson :=
  .obj [("ok", .bool true), ("stdout", .str ""), ("stderr", .str "")]

/-- A world where every spawn succeeds, the exchanges at cursor positions 1
and 3 raise a stream error, and every other exchange answers a complete
record: starting from `liveSt`, both attempts of one `execute_python` call
fail while both of its restarts succeed. -/
def w2 : World where
  spawns := fun _ => .ok { hasStdin := true, hasStdout := true }
  comms := fun i => if i = 1 ∨ i = 3 then .readError "exchange failed" else .line (.json okRecord)

/-- C2 counterexample: when the attempt and its retry both fail with a
transport error, `execute_python` runs `_restart_python_session` twice in
one caller-visible call — refuting "no more than one restart occurs per
caller-visible call". -/
theorem c2_counterexample :
    (executePython w2 liveSt "x = 1" 9).restarts = 2
    ∧ (executePython w2 liveSt "x = 1" 9).outcome =
        .ret { success := false, error := some "exchange failed" } := by
  constructor <;> rfl

/-- C2 (amended): a transport/decoding error triggers a restart and exactly
one retry of the same request against the fresh session; when the retry also
fails, a second restart runs before the call returns a failure result
carrying the last error's diagnostic text — so up to two (not exactly one)
restarts occur per caller-visible call.  The final log shows the caller's
payload sent exactly twice (attempt and single retry). -/
theorem c2_restart_retry_amended (w : World) (s : SandboxSt) (p : ProcHandle)
    (code : String) (t : Nat) (m1 m2 : String) (j1 j2 : PyJson)
    (hp : s.pythonProc = some p) (hs : streamsOk p = true)
    (h0 : w.comms s.commIdx = .readError m1)
    (hsp1 : w.spawns s.spawnIdx = .ok { hasStdin := true, hasStdout := true })
    (h1 : w.comms (s.commIdx + 1) = .line (.json j1))
    (h2 : w.comms (s.commIdx + 2) = .readError m2)
    (hsp2 : w.spawns (s.spawnIdx + 1) = .ok { hasStdin := true, hasStdout := true })
    (h3 : w.comms (s.commIdx + 3) = .line (.json j2)) :
    executePython w s code t =
      { outcome := .ret { success := false, error := some m2 }
        st :=
          { pythonProc :=
              some { id := s.spawnIdx + 1, cfg := { hasStdin := true, hasStdout := true } }
            spawnIdx := s.spawnIdx + 2
            commIdx := s.commIdx + 4
            log := s.log ++
              [(p.id, code), (s.spawnIdx, pySessionInit),
               (s.spawnIdx, code), (s.spawnIdx + 1, pySessionInit)] }
        restarts := 2 }
    ∧ (∀ w' s' c' t', (executePython w' s' c' t').restarts ≤ 2) := by
  constructor
  · obtain ⟨pid, pcfg⟩ := p
    obtain ⟨pin, pout⟩ := pcfg
    simp only [streamsOk, Bool.and_eq_true] at hs
    obtain ⟨hin, hout⟩ := hs
    subst hin
    subst hout
    have e2 : s.commIdx + 1 + 1 = s.commIdx + 2 := by omega
    have e3 : s.commIdx + 1 + 1 + 1 = s.commIdx + 3 := by omega
    have e4 : s.commIdx + 1 + 1 + 1 + 1 = s.commIdx + 4 := by omega
    have f2 : s.spawnIdx + 1 + 1 = s.spawnIdx + 2 := by omega
    simp [executePython, ensureStep, commStep, commSent, afterFail, restartStep, startStep, finalFail,
      streamsOk, hp, h0, h1, h2, h3, hsp1, hsp2, e2, e3, e4, f2, List.append_assoc]
  · intro w' s' c' t'
    exact executePython_restarts_le w' s' c' t'

/-- C2 witness: the amended theorem instantiated on the concrete
double-failure world `w2`. -/
theorem c2_witness :
    executePython w2 liveSt "x = 1" 9 =
      { outcome := .ret { success := false, error := some "exchange failed" }
        st :=
          { pythonProc := some { id := 2, cfg := { hasStdin := true, hasStdout := true } }
            spawnIdx := 3
            commIdx := 5
            log := [(0, pySessionInit), (0, "x = 1"), (1, pySessionInit), (1, "x = 1"),
                    (2, pySessionInit)] }
        restarts := 2 }
    ∧ (∀ w' s' c' t', (executePython w' s' c' t').restarts ≤ 2) :=
  c2_restart_retry_amended w2 liveSt liveProc "x = 1" 9 "exchange failed" "exchange failed"
    okRecord okRecord rfl rfl rfl rfl rfl rfl rfl rfl

/-- A world whose exchange at cursor position 1 times out and whose later
exchanges answer complete records. -/
def w3 : World where
  spawns := fun _ => .ok { hasStdin := true, hasStdout := true }
  comms := fun i => if i = 1 then .timeout else .line (.json okRecord)

/-- C3: when the wait for the response line exceeds the timeout,
`execute_python` returns the Timeout result at once, performs no restart,
and leaves the process handle (and spawn cursor) unchanged — only the read
cursor and send log advance — so a subsequent call on the same session that
receives a well-formed record still succeeds. -/
theorem c3_timeout_preserves_session (w : World) (s : SandboxSt) (p : ProcHandle)
    (code : String) (t : Nat) (hp : s.pythonProc = some p) (hs : streamsOk p = true)
    (h0 : w.comms s.commIdx = .timeout) :
    executePython w s code t =
      { outcome := .ret (timeoutResult t)
        st := { s with commIdx := s.commIdx + 1, log := s.log ++ [(p.id, code)] }
        restarts := 0 }
    ∧ (∀ code2 kvs, w.comms (s.commIdx + 1) = .line (.json (.obj kvs)) →
        (executePython w { s with commIdx := s.commIdx + 1, log := s.log ++ [(p.id, code)] }
            code2 t).outcome = .ret (mkPyResult kvs)) := by
  obtain ⟨pid, pcfg⟩ := p
  obtain ⟨pin, pout⟩ := pcfg
  simp only [streamsOk, Bool.and_eq_true] at hs
  obtain ⟨hin, hout⟩ := hs
  subst hin
  subst hout
  constructor
  · simp [executePython, ensureStep, commStep, commSent, streamsOk, hp, h0]
  · intro code2 kvs h1
    simp [executePython, ensureStep, commStep, commSent, streamsOk, hp, h1]

/-- The session state left behind by the timed-out call of the C3
witness. -/
def afterTimeoutSt : SandboxSt :=
  { pythonProc := some liveProc, spawnIdx := 1, commIdx := 2
    log := [(0, pySessionInit), (0, "x = 1")] }

/-- C3 witness: a timed-out call on `w3` followed by a successful call on
the very same session state. -/
theorem c3_witness :
    executePython w3 liveSt "x = 1" 2 =
      { outcome := .ret (timeoutResult 2), st := afterTimeoutSt, restarts := 0 }
    ∧ (∀ code2 kvs, w3.comms 2 = .line (.json (.obj kvs)) →
        (executePython w3 afterTimeoutSt code2 2).outcome = .ret (mkPyResult kvs)) :=
  c3_timeout_preserves_session w3 liveSt liveProc "x = 1" 2 rfl rfl rfl

/-- The decoded value is a dict. -/
def PyJson.isObj : PyJson → Bool
  | .obj _ => true
  | _ => false

lemma afterFail_restarts_pos (w : World) (s : SandboxSt) (code : String) (t : Nat) :
    1 ≤ (afterFail w s code t).restarts := by
  unfold afterFail
  split
  · simp
  · simp
  · split
    · simp
    · simp [finalFail_restarts]
    · split <;> simp [finalFail_restarts]

/-- A world where every spawn succeeds and every exchange delivers a
whitespace-only response line. -/
def w5 : World where
  spawns := fun _ => .ok { hasStdin := true, hasStdout := true }
  comms := fun _ => .line .blank

/-- C5 counterexample: a whitespace-only response line — not a well-formed
response record — is not treated as Failed: `_communicate_with_python`
synthesizes `{"ok": True, "stdout": "", "stderr": ""}` for it and
`execute_python` returns a successful result with no restart. -/
theorem c5_counterexample :
    (executePython w5 liveSt "x = 1" 3).outcome =
      .ret { success := true, stdout := .str "", stderr := .str "", error := none }
    ∧ (executePython w5 liveSt "x = 1" 3).restarts = 0 := by
  constructor <;> rfl

/-- C5 (amended): a response line that `json.loads` cannot decode, or that
decodes to a non-dict value, marks the session Failed and engages the
restart-and-retry path; but a whitespace-only line is synthesized into a
successful empty response, and a decoded dict is accepted however
incomplete — missing fields are filled with defaults (`ok` false, empty
output) and the result is returned with no restart. -/
theorem c5_malformed_response_amended (w : World) (s : SandboxSt) (p : ProcHandle)
    (code : String) (t : Nat) (m : String) (j : PyJson) (kvs : List (String × PyJson))
    (hp : s.pythonProc = some p) (hs : streamsOk p = true) :
    (w.comms s.commIdx = .line (.malformed m) → 1 ≤ (executePython w s code t).restarts)
    ∧ (w.comms s.commIdx = .line (.json j) → j.isObj = false →
        1 ≤ (executePython w s code t).restarts)
    ∧ (w.comms s.commIdx = .line .blank →
        (executePython w s code t).outcome =
          .ret { success := true, stdout := .str "", stderr := .str "", error := none }
        ∧ (executePython w s code t).restarts = 0)
    ∧ (w.comms s.commIdx = .line (.json (.obj kvs)) →
        (executePython w s code t).outcome = .ret (mkPyResult kvs)
        ∧ (executePython w s code t).restarts = 0) := by
  obtain ⟨pid, pcfg⟩ := p
  obtain ⟨pin, pout⟩ := pcfg
  simp only [streamsOk, Bool.and_eq_true] at hs
  obtain ⟨hin, hout⟩ := hs
  subst hin
  subst hout
  refine ⟨?_, ?_, ?_, ?_⟩
  · intro h0
    simp [executePython, ensureStep, commStep, commSent, streamsOk, hp, h0, afterFail_restarts_pos]
  · intro h0 hobj
    cases j with
    | obj kvs2 => simp [PyJson.isObj] at hobj
    | null =>
      simp [executePython, ensureStep, commStep, commSent, streamsOk, hp, h0, afterFail_restarts_pos]
    | bool b =>
      simp [executePython, ensureStep, commStep, commSent, streamsOk, hp, h0, afterFail_restarts_pos]
    | num n =>
      simp [executePython, ensureStep, commStep, commSent, streamsOk, hp, h0, afterFail_restarts_pos]
    | str s2 =>
      simp [executePython, ensureStep, commStep, commSent, streamsOk, hp, h0, afterFail_restarts_pos]
    | arr xs =>
      simp [executePython, ensureStep, commStep, commSent, streamsOk, hp, h0, afterFail_restarts_pos]
  · intro h0
    have h' : executePython w s code t =
        { outcome := .ret (mkPyResult [("ok", .bool true), ("stdout", .str ""), ("stderr", .str "")])
          st := { s with commIdx := s.commIdx + 1, log := s.log ++ [(pid, code)] }
          restarts := 0 } := by
      simp [executePython, ensureStep, commStep, commSent, streamsOk, hp, h0]
    rw [h']
    exact ⟨rfl, rfl⟩
  · intro h0
    constructor <;> simp [executePython, ensureStep, commStep, commSent, streamsOk, hp, h0]

/-- C5 witness: the amended theorem instantiated on the all-blank world
`w5`, with the blank-line conjunct discharged. -/
theorem c5_witness :
    (executePython w5 liveSt "x = 1" 3).outcome =
      .ret { success := true, stdout := .str "", stderr := .str "", error := none }
    ∧ (executePython w5 liveSt "x = 1" 3).restarts = 0 :=
  (c5_malformed_response_amended w5 liveSt liveProc "x = 1" 3 "boom" PyJson.null []
    rfl rfl).2.2.1 rfl

lemma sessionLoop_all_requests (eval : Nat → RunOut) :
    ∀ (reqs : List ReqLine) (k : Nat), reqs.all ReqLine.isRequest = true →
      sessionLoop eval reqs k =
        ((List.range reqs.length).map (fun i => eval (k + i)), LoopEnd.eof) := by
  intro reqs
  induction reqs with
  | nil =>
    intro k h
    simp [sessionLoop]
  | cons r rest ih =>
    intro k h
    simp only [List.all_cons, Bool.and_eq_true] at h
    obtain ⟨hr, hrest⟩ := h
    cases r with
    | blank => simp [ReqLine.isRequest] at hr
    | malformed => simp [ReqLine.isRequest] at hr
    | msg j =>
      cases j with
      | null => simp [ReqLine.isRequest] at hr
      | bool b => simp [ReqLine.isRequest] at hr
      | num n => simp [ReqLine.isRequest] at hr
      | str s2 => simp [ReqLine.isRequest] at hr
      | arr xs => simp [ReqLine.isRequest] at hr
      | obj kvs =>
        simp only [ReqLine.isRequest, Bool.not_eq_true'] at hr
        have hadd : ∀ i, k + 1 + i = k + (i + 1) := fun i => by omega
        simp [sessionLoop, hr, ih (k + 1) hrest, List.range_succ_eq_map, List.map_map,
          Function.comp, hadd]

/-- The response record the C4 fixtures use for every executed snippet. -/
def evalC : Nat → RunOut := fun _ => { ok := true, stdout := "", stderr := "" }

/-- A well-formed, non-terminate request line. -/
def goodReq : ReqLine := .msg (.obj [("code", .str "print(1)")])

/-- C4 counterexample: a corrupted (non-decodable) line is not discarded —
`json.loads` raises uncaught and the resident loop dies, so the well-formed
request following it is never served (no response, end state `crashed`
instead of resynchronizing). -/
theorem c4_counterexample :
    sessionLoop evalC [ReqLine.malformed, goodReq] 0 = ([], LoopEnd.crashed) := rfl

/-- C4 (amended): each well-formed request yields exactly one response
record before the next line is read, and a run of well-formed requests is
answered one-for-one in order; a whitespace-only line is discarded with the
loop continuing; but a non-decodable line terminates the resident loop
(uncaught decode error) instead of being discarded — recovery happens only
through the client's session restart. -/
theorem c4_loop_amended (eval : Nat → RunOut) :
    (∀ kvs rest k, (pyDictGet kvs "_terminate" .null).truthy = false →
        sessionLoop eval (ReqLine.msg (.obj kvs) :: rest) k =
          (eval k :: (sessionLoop eval rest (k + 1)).1, (sessionLoop eval rest (k + 1)).2))
    ∧ (∀ reqs k, reqs.all ReqLine.isRequest = true →
        sessionLoop eval reqs k =
          ((List.range reqs.length).map (fun i => eval (k + i)), LoopEnd.eof))
    ∧ (∀ reqs k, sessionLoop eval (ReqLine.blank :: reqs) k = sessionLoop eval reqs k)
    ∧ (∀ reqs k, sessionLoop eval (ReqLine.malformed :: reqs) k = ([], LoopEnd.crashed)) := by
  refine ⟨?_, sessionLoop_all_requests eval, ?_, ?_⟩
  · intro kvs rest k h
    simp [sessionLoop, h]
  · intro reqs k
    rfl
  · intro reqs k
    rfl

/-- C4 witness: two well-formed requests are served one response each, in
order, with the loop reaching end of input. -/
theorem c4_witness :
    sessionLoop evalC [goodReq, goodReq] 0 =
      ((List.range 2).map (fun i => evalC (0 + i)), LoopEnd.eof) :=
  (c4_loop_amended evalC).2.1 [goodReq, goodReq] 0 rfl

/-- Worker for `initFirst`: `seen` holds the process ids already
encountered earlier in the log. -/
def initFirstGo : List Nat → List (Nat × String) → Bool
  | _, [] => true
  | seen, (pid, pay) :: rest =>
    if pid ∈ seen then initFirstGo seen rest
    else (pay == pySessionInit) && initFirstGo (pid :: seen) rest

/-- Every process id's first payload in the send log is the fixed
initialization snippet. -/
def initFirst (log : List (Nat × String)) : Bool := initFirstGo [] log

lemma initFirstGo_append (seen : List Nat) (log : List (Nat × String)) (e : Nat × String)
    (h : initFirstGo seen log = true)
    (he : e.1 ∈ seen ∨ e.1 ∈ log.map Prod.fst ∨ e.2 = pySessionInit) :
    initFirstGo seen (log ++ [e]) = true := by
  induction log generalizing seen with
  | nil =>
    obtain ⟨pid, pay⟩ := e
    simp only [List.map_nil, List.not_mem_nil, false_or] at he
    simp only [List.nil_append]
    rcases he with h1 | h2
    · simp [initFirstGo, h1]
    · by_cases hm : pid ∈ seen
      · simp [initFirstGo, hm]
      · simp [initFirstGo, hm, h2]
  | cons b rest ih =>
    obtain ⟨bpid, bpay⟩ := b
    simp only [List.cons_append]
    by_cases hb : bpid ∈ seen
    · simp only [initFirstGo, hb, if_true] at h ⊢
      refine ih seen h ?_
      rcases he with h1 | h2 | h3
      · exact Or.inl h1
      · simp only [List.map_cons, List.mem_cons] at h2
        rcases h2 with h2 | h2
        · exact Or.inl (h2 ▸ hb)
        · exact Or.inr (Or.inl h2)
      · exact Or.inr (Or.inr h3)
    · simp only [initFirstGo, hb, if_false, Bool.and_eq_true] at h ⊢
      obtain ⟨hpay, h⟩ := h
      refine ⟨hpay, ih (bpid :: seen) h ?_⟩
      rcases he with h1 | h2 | h3
      · exact Or.inl (List.mem_cons_of_mem _ h1)
      · simp only [List.map_cons, List.mem_cons] at h2
        rcases h2 with h2 | h2
        · exact Or.inl (h2 ▸ List.mem_cons_self _ _)
        · exact Or.inr (Or.inl h2)
      · exact Or.inr (Or.inr h3)

lemma initFirst_append (log : List (Nat × String)) (e : Nat × String)
    (h : initFirst log = true)
    (he : e.1 ∈ log.map Prod.fst ∨ e.2 = pySessionInit) :
    initFirst (log ++ [e]) = true :=
  initFirstGo_append [] log e h (Or.inr he)

/-- Invariant tying a sandbox state to its send log: every process's first
logged payload is the initialization snippet, every logged id and the live
handle's id come from spawns already counted, and a live handle with usable
streams has already received at least one payload (its first being the
initialization snippet, by the first conjunct). -/
def SessInv (s : SandboxSt) : Prop :=
  initFirst s.log = true
  ∧ (∀ e ∈ s.log, e.1 < s.spawnIdx)
  ∧ (∀ p, s.pythonProc = some p →
      p.id < s.spawnIdx ∧ (streamsOk p = true → p.id ∈ s.log.map Prod.fst))

lemma commStep_inv (w : World) (s : SandboxSt) (pay : String) (hInv : SessInv s) :
    SessInv (commStep w s pay).2 := by
  obtain ⟨h1, h2, h3⟩ := hInv
  unfold commStep
  rcases hP : s.pythonProc with _ | p
  · exact ⟨h1, h2, h3⟩
  · by_cases hS : streamsOk p = true
    · obtain ⟨hlt, hmem⟩ := h3 p hP
      have key : SessInv (commSent s p.id pay) := by
        refine ⟨?_, ?_, ?_⟩
        · exact initFirst_append s.log (p.id, pay) h1 (Or.inl (hmem hS))
        · intro e he
          simp only [commSent, List.mem_append, List.mem_singleton] at he
          rcases he with he | he
          · exact h2 e he
          · subst he
            exact hlt
        · intro q hq
          simp only [commSent] at hq
          rw [hP] at hq
          obtain rfl : p = q := by injection hq
          refine ⟨hlt, fun _ => ?_⟩
          simp only [commSent, List.map_append, List.mem_append]
          exact Or.inl (hmem hS)
      simp only [hS, if_true]
      split <;> exact key
    · simp only [hS, if_false]
      exact ⟨h1, h2, h3⟩

lemma commStep_snd (w : World) (s : SandboxSt) (pay : String) (p : ProcHandle)
    (hp : s.pythonProc = some p) (hs : streamsOk p = true) :
    (commStep w s pay).2 = commSent s p.id pay := by
  unfold commStep
  rw [hp]
  simp only [hs, if_true]
  split <;> rfl

lemma commStep_snd_noStreams (w : World) (s : SandboxSt) (pay : String) (p : ProcHandle)
    (hp : s.pythonProc = some p) (hs : ¬ streamsOk p = true) :
    (commStep w s pay).2 = s := by
  unfold commStep
  rw [hp]
  simp [hs]

lemma startStep_snd_err (w : World) (s : SandboxSt) (m : String)
    (hsp : w.spawns s.spawnIdx = .error m) :
    (startStep w s).2 = { s with spawnIdx := s.spawnIdx + 1 } := by
  unfold startStep
  rw [hsp]

lemma startStep_snd_ok (w : World) (s : SandboxSt) (cfg : StreamCfg)
    (hsp : w.spawns s.spawnIdx = .ok cfg) :
    (startStep w s).2 = (commStep w { s with spawnIdx := s.spawnIdx + 1, pythonProc := some { id := s.spawnIdx, cfg := cfg } } pySessionInit).2 := by
  unfold startStep
  split
  · rename_i m heq
    rw [hsp] at heq
    exact absurd heq (by simp)
  · rename_i cfg2 heq
    rw [hsp] at heq
    injection heq with h
    subst h
    rcases hE : commStep w { s with spawnIdx := s.spawnIdx + 1, pythonProc := some { id := s.spawnIdx, cfg := cfg } } pySessionInit with ⟨res, s2⟩
    cases res <;> rfl

lemma startStep_inv (w : World) (s : SandboxSt) (hproc : s.pythonProc = none)
    (h1 : initFirst s.log = true) (h2 : ∀ e ∈ s.log, e.1 < s.spawnIdx) :
    SessInv (startStep w s).2 := by
  rcases hsp : w.spawns s.spawnIdx with m | cfg
  · rw [startStep_snd_err w s m hsp]
    refine ⟨h1, ?_, ?_⟩
    · intro e he
      exact Nat.lt_succ_of_lt (h2 e he)
    · intro p hp
      simp only at hp
      rw [hproc] at hp
      exact absurd hp (by simp)
  · rw [startStep_snd_ok w s cfg hsp]
    by_cases hS : streamsOk { id := s.spawnIdx, cfg := cfg } = true
    · rw [commStep_snd w _ pySessionInit { id := s.spawnIdx, cfg := cfg } rfl hS]
      refine ⟨?_, ?_, ?_⟩
      · exact initFirst_append s.log (s.spawnIdx, pySessionInit) h1 (Or.inr rfl)
      · intro e he
        simp only [commSent, List.mem_append, List.mem_singleton] at he
        rcases he with he | he
        · exact Nat.lt_succ_of_lt (h2 e he)
        · subst he
          exact Nat.lt_succ_self _
      · intro q hq
        simp only [commSent] at hq
        obtain rfl : ({ id := s.spawnIdx, cfg := cfg } : ProcHandle) = q := by injection hq
        refine ⟨Nat.lt_succ_self _, fun _ => ?_⟩
        simp [commSent]
    · rw [commStep_snd_noStreams w _ pySessionInit { id := s.spawnIdx, cfg := cfg } rfl hS]
      refine ⟨h1, ?_, ?_⟩
      · intro e he
        exact Nat.lt_succ_of_lt (h2 e he)
      · intro q hq
        simp only at hq
        obtain rfl : ({ id := s.spawnIdx, cfg := cfg } : ProcHandle) = q := by injection hq
        exact ⟨Nat.lt_succ_self _, fun hS2 => absurd hS2 hS⟩

lemma ensureStep_inv (w : World) (s : SandboxSt) (hInv : SessInv s) :
    SessInv (ensureStep w s).2 := by
  unfold ensureStep
  rcases hP : s.pythonProc with _ | p
  · exact startStep_inv w s hP hInv.1 hInv.2.1
  · exact hInv

lemma restartStep_inv (w : World) (s : SandboxSt) (hInv : SessInv s) :
    SessInv (restartStep w s).2 := by
  unfold restartStep
  exact startStep_inv w _ rfl hInv.1 hInv.2.1

lemma finalFail_inv (w : World) (s : SandboxSt) (m : String) (hInv : SessInv s) :
    SessInv (finalFail w s m).st := by
  have h := restartStep_inv w s hInv
  unfold finalFail
  split
  · rename_i s1 heq
    rw [heq] at h
    exact h
  · rename_i em s1 heq
    rw [heq] at h
    exact h
  · rename_i s1 heq
    rw [heq] at h
    exact h

lemma afterFail_inv (w : World) (s : SandboxSt) (code : String) (t : Nat) (hInv : SessInv s) :
    SessInv (afterFail w s code t).st := by
  have h := restartStep_inv w s hInv
  unfold afterFail
  split
  · rename_i s1 heq
    rw [heq] at h
    exact h
  · rename_i em s1 heq
    rw [heq] at h
    exact h
  · rename_i s1 heq
    rw [heq] at h
    have h' : SessInv s1 := h
    have h2 := ensureStep_inv w s1 h'
    split
    · rename_i s2 heq2
      rw [heq2] at h2
      exact h2
    · rename_i m2 s2 heq2
      rw [heq2] at h2
      exact finalFail_inv w s2 m2 h2
    · rename_i s2 heq2
      rw [heq2] at h2
      have h2' : SessInv s2 := h2
      have h3 := commStep_inv w s2 code h2'
      split
      · rename_i s3 heq3
        rw [heq3] at h3
        exact h3
      · rename_i m2 s3 heq3
        rw [heq3] at h3
        exact finalFail_inv w s3 m2 h3
      · rename_i kvs s3 heq3
        rw [heq3] at h3
        exact h3
      · rename_i j s3 ex heq3
        rw [heq3] at h3
        exact finalFail_inv w s3 (attrGetMsg j) h3

lemma executePython_inv (w : World) (s : SandboxSt) (code : String) (t : Nat)
    (hInv : SessInv s) : SessInv (executePython w s code t).st := by
  have h := ensureStep_inv w s hInv
  unfold executePython
  split
  · rename_i s1 heq
    rw [heq] at h
    exact h
  · rename_i m s1 heq
    rw [heq] at h
    have h' : SessInv s1 := h
    exact afterFail_inv w s1 code t h'
  · rename_i s1 heq
    rw [heq] at h
    have h' : SessInv s1 := h
    have h2 := commStep_inv w s1 code h'
    split
    · rename_i s2 heq2
      rw [heq2] at h2
      exact h2
    · rename_i m s2 heq2
      rw [heq2] at h2
      exact afterFail_inv w s2 code t h2
    · rename_i kvs s2 heq2
      rw [heq2] at h2
      exact h2
    · rename_i j s2 ex heq2
      rw [heq2] at h2
      exact afterFail_inv w s2 code t h2

lemma sessInv_liveSt : SessInv liveSt := by
  refine ⟨rfl, ?_, ?_⟩
  · intro e he
    simp only [liveSt, List.mem_singleton] at he
    subst he
    decide
  · intro p hp
    simp only [liveSt, Option.some.injEq] at hp
    subst hp
    refine ⟨by decide, fun _ => by decide⟩

/-- C6: in every reachable send log, each resident process's first payload
is the fixed initialization snippet `pySessionInit` — the snippet is written
to a freshly (re)started process before any caller-supplied code is written
to it; `execute_python` preserves this invariant from any state satisfying
it, and the fresh sandbox state satisfies it. -/
theorem c6_init_before_code (w : World) (s : SandboxSt) (code : String) (t : Nat)
    (hInv : SessInv s) :
    SessInv (executePython w s code t).st
    ∧ initFirst (executePython w s code t).st.log = true
    ∧ SessInv ({} : SandboxSt) := by
  have h := executePython_inv w s code t hInv
  refine ⟨h, h.1, rfl, ?_, ?_⟩
  · intro e he
    exact absurd he (by simp)
  · intro p hp
    exact absurd hp (by simp)

/-- C6 witness: the invariant theorem applied to a healthy initialized
session in a world where every exchange succeeds. -/
theorem c6_witness :
    SessInv (executePython goodWorld liveSt "x = 1" 5).st
    ∧ initFirst (executePython goodWorld liveSt "x = 1" 5).st.log = true
    ∧ SessInv ({} : SandboxSt) :=
  c6_init_before_code goodWorld liveSt "x = 1" 5 sessInv_liveSt

lemma lookup_filter_ne (l : List (String × Nat)) (sid : String) :
    (l.filter (fun kv => kv.1 != sid)).lookup sid = none := by
  induction l with
  | nil => rfl
  | cons kv rest ih =>
    obtain ⟨k, v⟩ := kv
    by_cases hk : k = sid
    · subst hk
      simpa using ih
    · simp only [List.filter_cons]
      have hne : (( (k, v).1 != sid) : Bool) = true := by
        simp [hk]
      rw [if_pos hne]
      have hsk : (sid == k) = false := by
        simp [Ne.symm hk]
      simp [List.lookup, hsk, ih]

/-- C7: `_get_sandbox` returns the registered sandbox when the id is present
— two consecutive acquires agree and the second changes nothing — and
otherwise registers and returns a fresh one; `cleanup_sandbox` of an unknown
id calls nothing and is a no-op, and (provided terminating the registered
sandbox does not raise) release followed by release succeeds both times. -/
theorem c7_registry_acquire_release (st : Registry) (sid : String)
    (term : Nat → Option String)
    (hterm : ∀ sb, st.table.lookup sid = some sb → term sb = none) :
    ((getSandbox (getSandbox st sid).2 sid).1 = (getSandbox st sid).1
      ∧ (getSandbox (getSandbox st sid).2 sid).2 = (getSandbox st sid).2)
    ∧ (st.table.lookup sid = none →
        (getSandbox st sid).2.table.lookup sid = some st.next)
    ∧ (st.table.lookup sid = none → cleanupSandbox term st sid = .ok st)
    ∧ (∃ st', cleanupSandbox term st sid = .ok st'
        ∧ cleanupSandbox term st' sid = .ok st') := by
  refine ⟨?_, ?_, ?_, ?_⟩
  · rcases hL : st.table.lookup sid with _ | sb
    · simp [getSandbox, hL, List.lookup]
    · simp [getSandbox, hL]
  · intro hL
    simp [getSandbox, hL, List.lookup]
  · intro hL
    simp [cleanupSandbox, hL]
  · rcases hL : st.table.lookup sid with _ | sb
    · exact ⟨st, by simp [cleanupSandbox, hL], by simp [cleanupSandbox, hL]⟩
    · refine ⟨{ st with table := st.table.filter (fun kv => kv.1 != sid) }, ?_, ?_⟩
      · simp [cleanupSandbox, hL, hterm sb hL]
      · simp [cleanupSandbox, lookup_filter_ne]

/-- A registry holding one session, used by the C7 witness. -/
def reg0 : Registry := { table := [("alice", 7)], next := 8 }

/-- C7 witness: the registry theorem applied to a concrete registry whose
sandbox terminates cleanly. -/
theorem c7_witness :
    ((getSandbox (getSandbox reg0 "alice").2 "alice").1 = (getSandbox reg0 "alice").1
      ∧ (getSandbox (getSandbox reg0 "alice").2 "alice").2 = (getSandbox reg0 "alice").2)
    ∧ (reg0.table.lookup "alice" = none →
        (getSandbox reg0 "alice").2.table.lookup "alice" = some reg0.next)
    ∧ (reg0.table.lookup "alice" = none →
        cleanupSandbox (fun _ => none) reg0 "alice" = .ok reg0)
    ∧ (∃ st', cleanupSandbox (fun _ => none) reg0 "alice" = .ok st'
        ∧ cleanupSandbox (fun _ => none) st' "alice" = .ok st') :=
  c7_registry_acquire_release reg0 "alice" (fun _ => none) (fun _ _ => rfl)

/-- C8: a one-shot command that completes within its timeout maps to a
result whose success flag is true exactly when the exit code is 0, carrying
both decoded streams; a timeout maps to the Timeout result and any other
exception to a Failure result.  `executeBash` touches no session state: its
definition takes no `SandboxSt` and performs no restart. -/
theorem c8_bash_result_mapping (command : String) (t : Nat) (n : Int)
    (out err : StreamData) (m : String) :
    (executeBash command (.completes (some n) out err) t =
      { success := n == 0, stdout := .str (decodeStream out),
        stderr := .str (decodeStream err), error := none })
    ∧ ((executeBash command (.completes (some n) out err) t).success = true ↔ n = 0)
    ∧ (executeBash command .raisesTimeout t =
        { success := false, error := some (timeoutMsg t) })
    ∧ (executeBash command (.raises m) t = { success := false, error := some m }) := by
  refine ⟨rfl, ?_, rfl, rfl⟩
  simp [executeBash]

/-- C9: a timed-out call drains nothing and leaves the handle in place; the
next call on the same state issues exactly one read and adopts the line it
receives — the late response to the timed-out request — as the response to
its own, different, request. -/
theorem c9_stale_line_consumed (w : World) (s : SandboxSt) (p : ProcHandle)
    (c1 c2 : String) (t : Nat) (kvs : List (String × PyJson))
    (hp : s.pythonProc = some p) (hs : streamsOk p = true)
    (h0 : w.comms s.commIdx = .timeout)
    (h1 : w.comms (s.commIdx + 1) = .line (.json (.obj kvs))) :
    (executePython w s c1 t).outcome = .ret (timeoutResult t)
    ∧ (executePython w s c1 t).st.pythonProc = some p
    ∧ (executePython w s c1 t).st.commIdx = s.commIdx + 1
    ∧ (executePython w (executePython w s c1 t).st c2 t).outcome = .ret (mkPyResult kvs)
    ∧ (executePython w (executePython w s c1 t).st c2 t).st.commIdx = s.commIdx + 2 := by
  obtain ⟨pid, pcfg⟩ := p
  obtain ⟨pin, pout⟩ := pcfg
  simp only [streamsOk, Bool.and_eq_true] at hs
  obtain ⟨hin, hout⟩ := hs
  subst hin
  subst hout
  have hfirst : executePython w s c1 t =
      { outcome := .ret (timeoutResult t), st := commSent s pid c1, restarts := 0 } := by
    simp [executePython, ensureStep, commStep, commSent, streamsOk, hp, h0]
  have e2 : s.commIdx + 1 + 1 = s.commIdx + 2 := by omega
  rw [hfirst]
  refine ⟨rfl, ?_, rfl, ?_, ?_⟩
  · simp [commSent, hp]
  · simp [executePython, ensureStep, commStep, commSent, streamsOk, hp, h1]
  · simp [executePython, ensureStep, commStep, commSent, streamsOk, hp, h1, e2]

/-- C9 witness: the stale-line theorem on the concrete world `w3`, whose
exchange 1 times out and whose exchange 2 delivers the late record. -/
theorem c9_witness :
    (executePython w3 liveSt "a" 2).outcome = .ret (timeoutResult 2)
    ∧ (executePython w3 liveSt "a" 2).st.pythonProc = some liveProc
    ∧ (executePython w3 liveSt "a" 2).st.commIdx = 2
    ∧ (executePython w3 (executePython w3 liveSt "a" 2).st "b" 2).outcome =
        .ret (mkPyResult [("ok", .bool true), ("stdout", .str ""), ("stderr", .str "")])
    ∧ (executePython w3 (executePython w3 liveSt "a" 2).st "b" 2).st.commIdx = 3 :=
  c9_stale_line_consumed w3 liveSt liveProc "a" "b" 2
    [("ok", .bool true), ("stdout", .str ""), ("stderr", .str "")] rfl rfl rfl rfl

/-- C10: both one-off helpers run `sandbox.terminate()` in a `finally`
block, so the sandbox created for the call is terminated before the helper
finishes — both when the inner execute call returns a result (the helper
forwards it) and when it propagates an exception (exhibited on the failing
world `w1`). -/
theorem c10_helpers_terminate :
    (∀ w code, (runPython w code).sandboxTerminated = true
      ∧ (runPython w code).outcome = (executePython w {} code defaultTimeout).outcome)
    ∧ (∀ command ev, (runBash command ev).sandboxTerminated = true
      ∧ (runBash command ev).outcome = .ret (executeBash command ev defaultTimeout))
    ∧ (runPython w1 "x = 1").outcome = .exn (.other "spawn failed")
    ∧ (runPython w1 "x = 1").sandboxTerminated = true := by
  refine ⟨?_, ?_, rfl, rfl⟩
  · intro w code
    rcases hE : (executePython w {} code defaultTimeout).outcome with r | e <;>
      exact ⟨by simp [runPython, hE], by simp [runPython, hE]⟩
  · intro command ev
    exact ⟨rfl, rfl⟩
